import Mathlib

/-!
# Sketch viewer and PGM converter

A shallow embedding of `sketch.c` (the decoder that replays a sketch command
stream) and of `converter.c` (the encoder that turns a grey-scale grid into
sketch commands), followed by theorems about both.

Bytes are natural numbers below 256.  The display is not part of the sources;
it is represented by the log of the calls made on it.
-/

namespace Sketch

/-! ## Constants -/

/-- Opcode of a horizontal move, `enum { DX = 0, ... }`. -/
def DX : Nat := 0
/-- Opcode of a vertical move. -/
def DY : Nat := 1
/-- Opcode of a tool command. -/
def TOOL : Nat := 2
/-- Opcode of a data command. -/
def DATA : Nat := 3

/-- Tool selector `NONE`. -/
def NONE : Nat := 0
/-- Tool selector `LINE`. -/
def LINE : Nat := 1
/-- Tool selector `BLOCK`. -/
def BLOCK : Nat := 2
/-- Tool selector `COLOUR`. -/
def COLOUR : Nat := 3
/-- Tool selector `TARGETX`. -/
def TARGETX : Nat := 4
/-- Tool selector `TARGETY`. -/
def TARGETY : Nat := 5
/-- Modelled from the spec: the selector `SHOW` is declared in `sketch.h`, which is
not among the sources; it continues the enumeration of `converter.c` in the order
in which the spec lists the pseudo-tools (COLOUR, SET_TARGET_X, SET_TARGET_Y,
SHOW, PAUSE, NEXT_FRAME). -/
def SHOW : Nat := 6
/-- Modelled from the spec: the selector `PAUSE` of `sketch.h`, next in the
enumeration after `SHOW`. -/
def PAUSE : Nat := 7
/-- Modelled from the spec: the selector `NEXTFRAME` of `sketch.h`, next in the
enumeration after `PAUSE`. -/
def NEXTFRAME : Nat := 8

/-- Width of a C `unsigned int`: arithmetic on the accumulator wraps at `2^32`. -/
def UINT : Nat := 4294967296

/-! ## Display and pen state -/

/-- A call made on the display (`line`, `block`, `colour`, `show`, `pause` of
`displayfull.h`), with the arguments the decoder passes. -/
inductive Effect where
  | line (x0 y0 x1 y1 : Int)
  | block (x y w h : Int)
  | colour (rgba : Nat)
  | show
  | pause (ms : Nat)
  deriving DecidableEq, Repr

/-- The display, seen as the log of the calls made on it, oldest first. -/
abbrev display := List Effect

/-- Modelled from the spec: the pen-state record `state` is declared in `sketch.h`,
which is not among the sources.  The fields are those `newState` initialises.
Positions are integers (unbounded, as in the spec's data model), `tool` is one
of the selectors, `start` is the resume offset into the file (the source stores
`ftell` in it through a cast to `unsigned int`; offsets are naturals here, files
being shorter than `2^32` bytes), `data` is the accumulator, taken to be an
`unsigned int` like `start`, so that `doDATA` wraps at `UINT`, and `end` is the
frame-ended flag (named `fin` here, `end` being a keyword). -/
structure state where
  x : Int
  y : Int
  tx : Int
  ty : Int
  tool : Nat
  start : Nat
  data : Nat
  fin : Bool
  deriving DecidableEq, Repr

/-- The state `newState` allocates and initialises. -/
def newState : state :=
  { x := 0, y := 0, tx := 0, ty := 0, tool := LINE, start := 0, data := 0, fin := false }

/-! ## Decoder (`sketch.c`) -/

/-- Extract an opcode from a byte (two most significant bits). -/
def getOpcode (b : Nat) : Nat :=
  if b ≥ 192 then DATA
  else if b ≥ 128 then TOOL
  else if b ≥ 64 then DY
  else DX

/-- Extract an operand (-32..31) from the rightmost 6 bits of a byte. -/
def getOperand (b : Nat) : Int :=
  let b1 := if b ≥ 128 then b - 128 else b
  let b2 := if b1 ≥ 64 then b1 - 64 else b1
  if b2 ≥ 32 then (b2 : Int) - 64 else (b2 : Int)

/-- The `switch (OPERAND)` of `doTOOL`. -/
def toolSwitch (d : display) (s : state) (OPERAND : Int) : display × state :=
  if OPERAND = NONE then (d, { s with tool := NONE })
  else if OPERAND = LINE then (d, { s with tool := LINE })
  else if OPERAND = BLOCK then (d, { s with tool := BLOCK })
  else if OPERAND = COLOUR then (d ++ [Effect.colour s.data], s)
  else if OPERAND = TARGETX then (d, { s with tx := s.data })
  else if OPERAND = TARGETY then (d, { s with ty := s.data })
  else if OPERAND = SHOW then (d ++ [Effect.show], s)
  else if OPERAND = PAUSE then (d ++ [Effect.pause s.data], s)
  else if OPERAND = NEXTFRAME then (d, { s with fin := true })
  else (d, s)

/-- Executes the tool command: the `switch` on the operand, then `data = 0`. -/
def doTOOL (d : display) (s : state) (OPERAND : Int) : display × state :=
  ((toolSwitch d s OPERAND).1, { (toolSwitch d s OPERAND).2 with data := 0 })

/-- Executes the DX command. -/
def doDX (s : state) (OPERAND : Int) : state :=
  { s with tx := s.tx + OPERAND }

/-- Executes the DY command. -/
def doDY (d : display) (s : state) (OPERAND : Int) : display × state :=
  let s1 := { s with ty := s.ty + OPERAND }
  let d1 :=
    if s1.tool = LINE then d ++ [Effect.line s1.x s1.y s1.tx s1.ty]
    else if s1.tool = BLOCK then d ++ [Effect.block s1.x s1.y (s1.tx - s1.x) (s1.ty - s1.y)]
    else d
  (d1, { s1 with x := s1.tx, y := s1.ty })

/-- Executes the data command: shift the accumulator by six bits and add the
operand, read as unsigned; both steps are `unsigned int` arithmetic. -/
def doDATA (s : state) (OPERAND : Int) : state :=
  let shifted : Nat := (s.data * 64) % UINT
  let chunk : Int := if OPERAND < 0 then OPERAND + 64 else OPERAND
  { s with data := (((shifted : Int) + chunk) % (UINT : Int)).toNat }

/-- The arm of the `switch` in `obey` selected by an opcode. -/
inductive Arm where
  | tool
  | dx
  | dy
  | data
  | default
  deriving DecidableEq, Repr

/-- Dispatch of the `switch (OPCODE)` in `obey`. -/
def obeyArm (OPCODE : Nat) : Arm :=
  if OPCODE = TOOL then Arm.tool
  else if OPCODE = DX then Arm.dx
  else if OPCODE = DY then Arm.dy
  else if OPCODE = DATA then Arm.data
  else Arm.default

/-- Execute the next byte of the command sequence. -/
def obey (d : display) (s : state) (op : Nat) : display × state :=
  let OPCODE := getOpcode op
  let OPERAND := getOperand op
  match obeyArm OPCODE with
  | Arm.tool => doTOOL d s OPERAND
  | Arm.dx => (d, doDX s OPERAND)
  | Arm.dy => doDY d s OPERAND
  | Arm.data => (d, doDATA s OPERAND)
  | Arm.default => (d, s)

/-- Obey a sequence of bytes in order. -/
def obeyAll (d : display) (s : state) : List Nat → display × state
  | [] => (d, s)
  | b :: rest => obeyAll (obey d s b).1 (obey d s b).2 rest

/-- The body of the `while (! s->end)` loop of `processSketch`, run on the bytes
that remain in the file after the read position `pos`.  `fgetc` at the end of the
file yields `EOF`, which the `byte` variable holds as 255, and sets the
end-of-file indicator that `feof` tests. -/
def frameLoop : List Nat → Nat → display → state → display × state
  | [], pos, d, s =>
    if s.fin then (d, s)
    else
      let r := obey d s 255
      let s1 := if r.2.fin then { r.2 with start := pos } else r.2
      (r.1, { s1 with fin := true, start := 0, data := 0 })
  | b :: rest, pos, d, s =>
    if s.fin then (d, s)
    else
      let r := obey d s b
      let s1 := if r.2.fin then { r.2 with start := pos + 1 } else r.2
      frameLoop rest (pos + 1) r.1 s1

/-- Draw a frame of the sketch file `file`.  A `NULL` state only tests the key;
otherwise the file is read from offset `s.start`, the frame is shown and the pen
is reset.  Returns the display, the state and the boolean result. -/
def processSketch (file : List Nat) (d : display) (data : Option state) (pressedKey : Nat) :
    display × Option state × Bool :=
  match data with
  | none => (d, none, pressedKey == 27)
  | some s =>
    let r := frameLoop (file.drop s.start) s.start d s
    let s1 := r.2
    (r.1 ++ [Effect.show],
      some { s1 with x := 0, y := 0, tx := 0, ty := 0, tool := LINE, fin := false },
      true)

end Sketch

namespace Converter

/-! ## Encoder (`converter.c`) -/

/-- Opcode constants of `converter.c`, `enum { DX = 0, DY = 1, TOOL = 2, DATA = 3}`. -/
def DX : Nat := 0
/-- Opcode of a vertical move. -/
def DY : Nat := 1
/-- Opcode of a tool command. -/
def TOOL : Nat := 2
/-- Opcode of a data command. -/
def DATA : Nat := 3
/-- Tool selector `COLOUR`. -/
def COLOUR : Nat := 3
/-- Tool selector `TARGETX`. -/
def TARGETX : Nat := 4
/-- Tool selector `TARGETY`. -/
def TARGETY : Nat := 5

/-- A cell of allocated memory: `none` until a byte has been stored in it. -/
abbrev cell := Option Nat

/-- A block returned by `malloc`: `n` cells, none of them initialised. -/
def malloc (n : Nat) : List cell :=
  List.replicate n none

/-- Copy the first `n` cells of `src` into `dst` from offset `off` on. -/
def memcpy (dst : List cell) (off : Nat) (src : List cell) (n : Nat) : List cell :=
  dst.take off ++ src.take n ++ dst.drop (off + n)

/-- The seven command bytes that set the colour to a grey value; each
expression is stored in a `byte`, hence reduced modulo 256. -/
def getColourCommands (currentGreyVal : Nat) : List Nat :=
  [ ((DATA <<< 6) + (currentGreyVal >>> 2)) % 256,
    ((DATA <<< 6) + (currentGreyVal &&& 0x30) + (currentGreyVal >>> 4)) % 256,
    ((DATA <<< 6) + ((currentGreyVal &&& 0x0f) <<< 2) + (currentGreyVal >>> 6)) % 256,
    ((DATA <<< 6) + (currentGreyVal &&& 0x3f)) % 256,
    ((DATA <<< 6) + 63) % 256,
    ((DATA <<< 6) + 3) % 256,
    ((TOOL <<< 6) + COLOUR) % 256 ]

/-- The command bytes that set the target to column `j` of row `i` and draw:
the bytes stored one after the other at `commands[c]`, `c` counting them. -/
def getPositionCommands (i j : Nat) : List Nat :=
  (if j > 127 then [((DATA <<< 6) + ((j &&& 0xc0) >>> 6)) % 256] else []) ++
  [((DATA <<< 6) + (j &&& 0x3f)) % 256] ++
  [((TOOL <<< 6) + TARGETX) % 256] ++
  (if i > 127 then [((DATA <<< 6) + ((i &&& 0xc0) >>> 6)) % 256] else []) ++
  [((DATA <<< 6) + (j &&& 0x3f)) % 256] ++
  [((TOOL <<< 6) + TARGETY) % 256] ++
  [(DY <<< 6) % 256]

/-- The count `c` that `getColourAndPositionCommands` and `pgmToSk` compute
for a position: 5, plus one for each coordinate above 127. -/
def positionCount (i j : Nat) : Nat :=
  5 + (if i > 127 then 1 else 0) + (if j > 127 then 1 else 0)

/-- The block of `7 + c` cells holding the colour commands, copied to offset 0,
and the position commands, copied to offset `c`. -/
def getColourAndPositionCommands (currentGreyVal i j : Nat) : List cell :=
  let c := positionCount i j
  let colourCommands := (getColourCommands currentGreyVal).map some
  let positionCommands := (getPositionCommands i j).map some
  let buf0 := malloc (7 + c)
  let buf1 := memcpy buf0 0 colourCommands 7
  memcpy buf1 c positionCommands c

/-- For a given grey value, position of pixel and whether or not it equals its
neighbours, return list of relevant sketch commands. -/
def generateCommands (currentGreyVal i j : Nat) (equalsPrev equalsNext : Bool) : List cell :=
  if !equalsPrev && !equalsNext then getColourAndPositionCommands currentGreyVal i j
  else if !equalsPrev && equalsNext then (getColourCommands currentGreyVal).map some
  else if equalsPrev && !equalsNext then (getPositionCommands i j).map some
  else getColourAndPositionCommands currentGreyVal i j

/-- The flag `equalsPrev` that `pgmToSk` computes for the pixel at row `i`,
column `j` of the grid `data`. -/
def equalsPrevFlag (data : Nat → Nat → Nat) (i j : Nat) : Bool :=
  if j > 0 then (if data i (j - 1) ≠ data i j then true else false) else false

/-- The flag `equalsNext` that `pgmToSk` computes for the pixel at row `i`,
column `j` of the grid `data`. -/
def equalsNextFlag (data : Nat → Nat → Nat) (i j : Nat) : Bool :=
  if j < 199 then (if data i j = data i (j + 1) then true else false) else false

/-- The cells that the body of the inner loop of `pgmToSk` hands to `fwrite` for
a pixel with grey value `currentGreyVal` at row `i`, column `j`, given its two
flags; the coordinates reach `generateCommands` cast to `byte`. -/
def pixelCommands (currentGreyVal i j : Nat) (equalsPrev equalsNext : Bool) : List cell :=
  if !(equalsPrev && equalsNext) then
    let commands := generateCommands currentGreyVal (i % 256) (j % 256) equalsPrev equalsNext
    let c := positionCount i j
    let lengthOfCommands := if !equalsPrev && !equalsNext then 7 + c else c
    commands.take lengthOfCommands
  else []

/-- The cells written for the pixel at row `i`, column `j` of the grid `data`. -/
def pgmToSkPixel (data : Nat → Nat → Nat) (i j : Nat) : List cell :=
  pixelCommands (data i j) i j (equalsPrevFlag data i j) (equalsNextFlag data i j)

/-- The cells written for the columns `j, j + 1, ...` (`n` of them) of row `i`. -/
def pgmToSkRow (data : Nat → Nat → Nat) (i : Nat) : Nat → Nat → List cell
  | _, 0 => []
  | j, n + 1 => pgmToSkPixel data i j ++ pgmToSkRow data i (j + 1) n

/-- The cells written for the rows `i, i + 1, ...` (`n` of them) of a grid of
width `w`. -/
def pgmToSkRows (data : Nat → Nat → Nat) (w : Nat) : Nat → Nat → List cell
  | _, 0 => []
  | i, n + 1 => pgmToSkRow data i 0 w ++ pgmToSkRows data w (i + 1) n

/-- The content of the `.sk` file that `pgmToSk` writes for a grid of height `h`
and width `w`, scanned row by row. -/
def pgmToSk (data : Nat → Nat → Nat) (h w : Nat) : List cell :=
  pgmToSkRows data w 0 h

end Converter

namespace Sketch

/-! ## Auxiliary facts about the decoder -/

theorem getOperand_low_bits (b : Nat) (hb : b < 256) :
    getOperand b = if b % 64 < 32 then ((b % 64 : Nat) : Int) else ((b % 64 : Nat) : Int) - 64 := by
  unfold getOperand
  simp only []
  split_ifs <;> omega

theorem toolSwitch_display_append (d : display) (s : state) (o : Int) :
    toolSwitch d s o = (d ++ (toolSwitch [] s o).1, (toolSwitch [] s o).2) := by
  unfold toolSwitch
  by_cases hnone : o = NONE
  · rw [if_pos hnone, if_pos hnone]; simp
  rw [if_neg hnone, if_neg hnone]
  by_cases hline : o = LINE
  · rw [if_pos hline, if_pos hline]; simp
  rw [if_neg hline, if_neg hline]
  by_cases hblock : o = BLOCK
  · rw [if_pos hblock, if_pos hblock]; simp
  rw [if_neg hblock, if_neg hblock]
  by_cases hcolour : o = COLOUR
  · rw [if_pos hcolour, if_pos hcolour]; simp
  rw [if_neg hcolour, if_neg hcolour]
  by_cases htargetx : o = TARGETX
  · rw [if_pos htargetx, if_pos htargetx]; simp
  rw [if_neg htargetx, if_neg htargetx]
  by_cases htargety : o = TARGETY
  · rw [if_pos htargety, if_pos htargety]; simp
  rw [if_neg htargety, if_neg htargety]
  by_cases hshow : o = SHOW
  · rw [if_pos hshow, if_pos hshow]; simp
  rw [if_neg hshow, if_neg hshow]
  by_cases hpause : o = PAUSE
  · rw [if_pos hpause, if_pos hpause]; simp
  rw [if_neg hpause, if_neg hpause]
  by_cases hnextframe : o = NEXTFRAME
  · rw [if_pos hnextframe, if_pos hnextframe]; simp
  rw [if_neg hnextframe, if_neg hnextframe]
  simp

theorem doDY_display_append (d : display) (s : state) (o : Int) :
    doDY d s o = (d ++ (doDY [] s o).1, (doDY [] s o).2) := by
  unfold doDY
  simp only []
  split_ifs <;> simp

theorem obey_display_append (d : display) (s : state) (b : Nat) :
    obey d s b = (d ++ (obey [] s b).1, (obey [] s b).2) := by
  unfold obey
  simp only []
  cases obeyArm (getOpcode b) with
  | tool =>
    simp only [doTOOL]
    rw [toolSwitch_display_append d s]
  | dx => simp
  | dy =>
    simp only []
    rw [doDY_display_append d s]
  | data => simp
  | default => simp

theorem obeyAll_display_append (d : display) (s : state) (bs : List Nat) :
    obeyAll d s bs = (d ++ (obeyAll [] s bs).1, (obeyAll [] s bs).2) := by
  induction bs generalizing d s with
  | nil => simp [obeyAll]
  | cons b rest ih =>
    simp only [obeyAll]
    rw [ih (obey d s b).1, ih (obey [] s b).1, obey_display_append d s b]
    simp [List.append_assoc]

theorem obey_data_chunk (d : display) (s : state) (c : Nat) (hc : c < 64) :
    obey d s (192 + c) = (d, { s with data := (s.data * 64 % UINT + c) % UINT }) := by
  have hop : getOpcode (192 + c) = DATA := by
    unfold getOpcode
    simp
  have hval : (if getOperand (192 + c) < 0 then getOperand (192 + c) + 64
      else getOperand (192 + c)) = (c : Int) := by
    rw [getOperand_low_bits (192 + c) (by omega)]
    have hm : (192 + c) % 64 = c := by omega
    rw [hm]
    split_ifs <;> omega
  unfold obey
  simp only [hop]
  have harm : obeyArm DATA = Arm.data := by decide
  simp only [harm, doDATA, hval]
  have hnat : ((((s.data * 64 % UINT : Nat) : Int) + (c : Int)) % (UINT : Int)).toNat
      = (s.data * 64 % UINT + c) % UINT := by
    have : (((s.data * 64 % UINT : Nat) : Int) + (c : Int)) % (UINT : Int)
        = (((s.data * 64 % UINT + c) % UINT : Nat) : Int) := by
      push_cast
      rfl
    rw [this, Int.toNat_ofNat]
  rw [hnat]

theorem toolSwitch_fin (d : display) (s : state) (o : Int) (h : o ≠ NEXTFRAME) :
    (toolSwitch d s o).2.fin = s.fin := by
  unfold toolSwitch
  by_cases hnone : o = NONE
  · rw [if_pos hnone]
  rw [if_neg hnone]
  by_cases hline : o = LINE
  · rw [if_pos hline]
  rw [if_neg hline]
  by_cases hblock : o = BLOCK
  · rw [if_pos hblock]
  rw [if_neg hblock]
  by_cases hcolour : o = COLOUR
  · rw [if_pos hcolour]
  rw [if_neg hcolour]
  by_cases htargetx : o = TARGETX
  · rw [if_pos htargetx]
  rw [if_neg htargetx]
  by_cases htargety : o = TARGETY
  · rw [if_pos htargety]
  rw [if_neg htargety]
  by_cases hshow : o = SHOW
  · rw [if_pos hshow]
  rw [if_neg hshow]
  by_cases hpause : o = PAUSE
  · rw [if_pos hpause]
  rw [if_neg hpause]
  rw [if_neg h]

theorem obeyArm_tool (o : Nat) (h : obeyArm o = Arm.tool) : o = TOOL := by
  unfold obeyArm at h
  split_ifs at h
  assumption

theorem obey_fin (d : display) (s : state) (b : Nat)
    (h : ¬ (getOpcode b = TOOL ∧ getOperand b = NEXTFRAME)) :
    (obey d s b).2.fin = s.fin := by
  unfold obey
  simp only []
  cases harm : obeyArm (getOpcode b) with
  | tool =>
    have hop := obeyArm_tool _ harm
    have hne : getOperand b ≠ NEXTFRAME := fun hh => h ⟨hop, hh⟩
    simp only [doTOOL]
    exact toolSwitch_fin d s _ hne
  | dx => rfl
  | dy => rfl
  | data => rfl
  | default => rfl

theorem obey_marker (d : display) (s : state) (m : Nat)
    (hm : getOpcode m = TOOL ∧ getOperand m = NEXTFRAME) :
    obey d s m = (d, { s with fin := true, data := 0 }) := by
  have harm : obeyArm TOOL = Arm.tool := by decide
  unfold obey
  simp only [hm.1, hm.2, harm, doTOOL, toolSwitch]
  simp [NONE, LINE, BLOCK, COLOUR, TARGETX, TARGETY, SHOW, PAUSE, NEXTFRAME]

theorem obey_eof (d : display) (s : state) :
    obey d s 255 = (d, { s with data := (s.data * 64 % UINT + 63) % UINT }) :=
  obey_data_chunk d s 63 (by decide)

theorem obeyAll_fin (d : display) (s : state) (bs : List Nat)
    (h : ∀ b ∈ bs, ¬ (getOpcode b = TOOL ∧ getOperand b = NEXTFRAME)) :
    (obeyAll d s bs).2.fin = s.fin := by
  induction bs generalizing d s with
  | nil => rfl
  | cons b rest ih =>
    simp only [obeyAll]
    rw [ih _ _ (fun c hc => h c (List.mem_cons_of_mem b hc))]
    exact obey_fin d s b (h b (List.mem_cons_self b rest))

theorem frameLoop_to_eof (bs : List Nat) (pos : Nat) (d : display) (s : state)
    (hs : s.fin = false)
    (h : ∀ b ∈ bs, ¬ (getOpcode b = TOOL ∧ getOperand b = NEXTFRAME)) :
    frameLoop bs pos d s =
      ((obeyAll d s bs).1, { (obeyAll d s bs).2 with fin := true, start := 0, data := 0 }) := by
  induction bs generalizing pos d s with
  | nil =>
    rw [frameLoop]
    simp only [obeyAll, hs, obey_eof d s]
    simp
  | cons b rest ih =>
    have hf : (obey d s b).2.fin = false := by
      rw [obey_fin d s b (h b (List.mem_cons_self b rest))]; exact hs
    rw [frameLoop]
    simp only [obeyAll, hs, hf]
    simp only [Bool.false_eq_true, if_false]
    exact ih (pos + 1) _ _ hf (fun c hc => h c (List.mem_cons_of_mem b hc))

theorem frameLoop_to_marker (pre post : List Nat) (m pos : Nat) (d : display) (s : state)
    (hs : s.fin = false)
    (hm : getOpcode m = TOOL ∧ getOperand m = NEXTFRAME)
    (h : ∀ b ∈ pre, ¬ (getOpcode b = TOOL ∧ getOperand b = NEXTFRAME)) :
    frameLoop (pre ++ m :: post) pos d s =
      ((obeyAll d s pre).1,
        { (obeyAll d s pre).2 with fin := true, data := 0, start := pos + pre.length + 1 }) := by
  induction pre generalizing pos d s with
  | nil =>
    rw [List.nil_append, frameLoop]
    simp only [obeyAll, hs, obey_marker _ _ m hm]
    cases post <;> simp [frameLoop]
  | cons b rest ih =>
    have hf : (obey d s b).2.fin = false := by
      rw [obey_fin d s b (h b (List.mem_cons_self b rest))]; exact hs
    rw [List.cons_append, frameLoop]
    simp only [obeyAll, hs, hf]
    simp only [Bool.false_eq_true, if_false]
    rw [ih (pos + 1) _ _ hf (fun c hc => h c (List.mem_cons_of_mem b hc))]
    simp only [List.length_cons]
    have e : pos + 1 + rest.length + 1 = pos + (rest.length + 1) + 1 := by omega
    rw [e]

/-! ## Theorems about the decoder -/

/-- C1: for every byte `b`, `getOpcode b` is the value of the top two bits of `b`
(`b / 64`): `DX` below 64, `DY` from 64 to 127, `TOOL` from 128 to 191 and `DATA`
from 192 on; the result is one of the four opcodes, so the `switch` of `obey`
never selects its default arm. -/
theorem getOpcode_top_two_bits (b : Nat) (hb : b < 256) :
    getOpcode b = b / 64 ∧
    (b < 64 → getOpcode b = DX) ∧
    (64 ≤ b → b < 128 → getOpcode b = DY) ∧
    (128 ≤ b → b < 192 → getOpcode b = TOOL) ∧
    (192 ≤ b → getOpcode b = DATA) ∧
    (getOpcode b = DX ∨ getOpcode b = DY ∨ getOpcode b = TOOL ∨ getOpcode b = DATA) ∧
    obeyArm (getOpcode b) ≠ Arm.default := by
  unfold obeyArm getOpcode
  simp only [DX, DY, TOOL, DATA]
  split_ifs <;> simp <;> omega

theorem getOpcode_top_two_bits_witness :
    getOpcode 200 = 200 / 64 ∧
    (200 < 64 → getOpcode 200 = DX) ∧
    (64 ≤ 200 → 200 < 128 → getOpcode 200 = DY) ∧
    (128 ≤ 200 → 200 < 192 → getOpcode 200 = TOOL) ∧
    (192 ≤ 200 → getOpcode 200 = DATA) ∧
    (getOpcode 200 = DX ∨ getOpcode 200 = DY ∨ getOpcode 200 = TOOL ∨ getOpcode 200 = DATA) ∧
    obeyArm (getOpcode 200) ≠ Arm.default :=
  getOpcode_top_two_bits 200 (by decide)

/-- C2: for every byte `b`, `getOperand b` is the two's-complement reading of the
low six bits `r = b % 64` of `b`: it is `r` when `r < 32` and `r - 64` otherwise; it
lies between -32 and 31, and two bytes with the same low six bits have the same
operand, whatever their top two bits. -/
theorem getOperand_twos_complement (b c : Nat) (hb : b < 256) (hc : c < 256) :
    (b % 64 < 32 → getOperand b = ((b % 64 : Nat) : Int)) ∧
    (32 ≤ b % 64 → getOperand b = ((b % 64 : Nat) : Int) - 64) ∧
    -32 ≤ getOperand b ∧ getOperand b ≤ 31 ∧
    (b % 64 = c % 64 → getOperand b = getOperand c) := by
  rw [getOperand_low_bits b hb, getOperand_low_bits c hc]
  refine ⟨?_, ?_, ?_, ?_, ?_⟩
  · intro h; simp [h]
  · intro h; simp [Nat.not_lt.mpr h]
  · split_ifs <;> omega
  · split_ifs <;> omega
  · intro h; rw [h]

theorem getOperand_twos_complement_witness :
    (250 % 64 < 32 → getOperand 250 = ((250 % 64 : Nat) : Int)) ∧
    (32 ≤ 250 % 64 → getOperand 250 = ((250 % 64 : Nat) : Int) - 64) ∧
    -32 ≤ getOperand 250 ∧ getOperand 250 ≤ 31 ∧
    (250 % 64 = 58 % 64 → getOperand 250 = getOperand 58) :=
  getOperand_twos_complement 250 58 (by decide) (by decide)

/-- C3: for every value `V` below `2^24`, obeying the four DATA bytes that carry
the 6-bit chunks of `V`, most significant chunk first, from a pen state whose
accumulator is 0 leaves `data = V`, changes no other field of the pen state and
makes no call on the display; chunks of 32 and more, which `getOperand` returns
as negative numbers, are included. -/
theorem data_accumulation (d : display) (s : state) (V : Nat) (hV : V < 16777216)
    (hs : s.data = 0) :
    obeyAll d s [192 + V / 262144 % 64, 192 + V / 4096 % 64, 192 + V / 64 % 64, 192 + V % 64]
      = (d, { s with data := V }) := by
  simp only [obeyAll]
  rw [obey_data_chunk d s _ (Nat.mod_lt _ (by decide))]
  simp only []
  rw [obey_data_chunk d _ _ (Nat.mod_lt _ (by decide))]
  simp only []
  rw [obey_data_chunk d _ _ (Nat.mod_lt _ (by decide))]
  simp only []
  rw [obey_data_chunk d _ _ (Nat.mod_lt _ (by decide))]
  simp only [hs, UINT]
  congr 2
  omega

theorem data_accumulation_witness :
    obeyAll [] newState
        [192 + 16777215 / 262144 % 64, 192 + 16777215 / 4096 % 64, 192 + 16777215 / 64 % 64,
          192 + 16777215 % 64]
      = ([], { newState with data := 16777215 }) :=
  data_accumulation [] newState 16777215 (by decide) rfl

/-- C4: for every pen state and every MOVE_Y_DELTA byte `b`, with signed operand
`getOperand b`, `obey` adds the operand to `ty`, then calls `line x y tx ty` once when
the tool is LINE, `block x y (tx - x) (ty - y)` once when the tool is BLOCK and
nothing when the tool is NONE (`x`, `y` being the values before the command and
`ty` the updated target), and finally sets `x = tx` and `y = ty`; `tx`, `tool`,
`data` and the other fields are unchanged. -/
theorem obey_move_y (d : display) (s : state) (b : Nat) (hb : getOpcode b = DY) :
    (obey d s b).2 =
      { s with ty := s.ty + getOperand b, x := s.tx, y := s.ty + getOperand b } ∧
    (s.tool = LINE →
      (obey d s b).1 = d ++ [Effect.line s.x s.y s.tx (s.ty + getOperand b)]) ∧
    (s.tool = BLOCK →
      (obey d s b).1 =
        d ++ [Effect.block s.x s.y (s.tx - s.x) (s.ty + getOperand b - s.y)]) ∧
    (s.tool = NONE → (obey d s b).1 = d) := by
  have harm : obeyArm DY = Arm.dy := by decide
  unfold obey
  simp only [hb, harm, doDY]
  refine ⟨trivial, ?_, ?_, ?_⟩
  · intro h
    simp [h]
  · intro h
    have hne : ¬ (BLOCK = LINE) := by decide
    simp [h, hne]
  · intro h
    have hne : ¬ (NONE = LINE) := by decide
    have hne2 : ¬ (NONE = BLOCK) := by decide
    simp [h, hne, hne2]

theorem obey_move_y_witness :
    (obey [] newState 126).2 =
      { newState with ty := newState.ty + getOperand 126, x := newState.tx,
                      y := newState.ty + getOperand 126 } ∧
    (newState.tool = LINE →
      (obey [] newState 126).1 =
        [] ++ [Effect.line newState.x newState.y newState.tx (newState.ty + getOperand 126)]) ∧
    (newState.tool = BLOCK →
      (obey [] newState 126).1 =
        [] ++ [Effect.block newState.x newState.y (newState.tx - newState.x)
          (newState.ty + getOperand 126 - newState.y)]) ∧
    (newState.tool = NONE → (obey [] newState 126).1 = []) :=
  obey_move_y [] newState 126 (by decide)

/-- C5: for every pen state with accumulated value `data`, obeying a TOOL byte
whose selector is TARGETX sets `tx` to `data`, whose selector is TARGETY sets `ty`
to `data`, and whose selector is COLOUR makes exactly one call `colour data` on the
display; in each case `data` is 0 afterwards, every other field of the pen state
is unchanged, and the first two make no call on the display. -/
theorem obey_tool_consumes_data (d : display) (s : state) (bx bY bc : Nat)
    (hx : getOpcode bx = TOOL ∧ getOperand bx = TARGETX)
    (hy : getOpcode bY = TOOL ∧ getOperand bY = TARGETY)
    (hc : getOpcode bc = TOOL ∧ getOperand bc = COLOUR) :
    obey d s bx = (d, { s with tx := s.data, data := 0 }) ∧
    obey d s bY = (d, { s with ty := s.data, data := 0 }) ∧
    obey d s bc = (d ++ [Effect.colour s.data], { s with data := 0 }) := by
  have harm : obeyArm TOOL = Arm.tool := by decide
  unfold obey
  simp only [hx.1, hy.1, hc.1, hx.2, hy.2, hc.2, harm, doTOOL, toolSwitch]
  refine ⟨?_, ?_, ?_⟩
  · simp [NONE, LINE, BLOCK, COLOUR, TARGETX]
  · simp [NONE, LINE, BLOCK, COLOUR, TARGETX, TARGETY]
  · simp [NONE, LINE, BLOCK, COLOUR]

theorem obey_tool_consumes_data_witness :
    obey [] { newState with data := 200 } 132
      = ([], { { newState with data := 200 } with tx := 200, data := 0 }) ∧
    obey [] { newState with data := 200 } 133
      = ([], { { newState with data := 200 } with ty := 200, data := 0 }) ∧
    obey [] { newState with data := 200 } 131
      = ([] ++ [Effect.colour 200], { { newState with data := 200 } with data := 0 }) :=
  obey_tool_consumes_data [] { newState with data := 200 } 132 133 131
    (by decide) (by decide) (by decide)

/-- C6: for a byte stream `pre ++ [m] ++ post` in which `m` is a NEXT_FRAME command
and neither `pre` nor `post` contains one, two successive calls of `processSketch`
from the initial pen state behave as follows.  The first makes exactly the calls
on the display that obeying `pre` from the initial pen state makes, then one
`show`, and leaves the resume offset `start` at `length pre + 1`.  The second,
run on the display and state the first one left, makes exactly the calls that
obeying `post` makes from that state, in which `x = y = tx = ty = 0`, the tool is
LINE and `data = 0`, then one `show`, and leaves `start = 0`, the state being the
initial one again. -/
theorem frame_resumption (pre post : List Nat) (m : Nat) (d : display) (k1 k2 : Nat)
    (hm : getOpcode m = TOOL ∧ getOperand m = NEXTFRAME)
    (hpre : ∀ b ∈ pre, ¬ (getOpcode b = TOOL ∧ getOperand b = NEXTFRAME))
    (hpost : ∀ b ∈ post, ¬ (getOpcode b = TOOL ∧ getOperand b = NEXTFRAME)) :
    processSketch (pre ++ m :: post) d (some newState) k1 =
      (d ++ (obeyAll [] newState pre).1 ++ [Effect.show],
        some { newState with start := pre.length + 1 }, true) ∧
    processSketch (pre ++ m :: post) (d ++ (obeyAll [] newState pre).1 ++ [Effect.show])
        (some { newState with start := pre.length + 1 }) k2 =
      (d ++ (obeyAll [] newState pre).1 ++ [Effect.show]
          ++ (obeyAll [] { newState with start := pre.length + 1 } post).1 ++ [Effect.show],
        some newState, true) := by
  constructor
  · have h0 : newState.start = 0 := rfl
    have hf : newState.fin = false := rfl
    simp only [processSketch, h0, List.drop_zero]
    rw [frameLoop_to_marker pre post m 0 d newState hf hm hpre,
      obeyAll_display_append d newState pre]
    simp [newState]
  · have hf : ({ newState with start := pre.length + 1 } : state).fin = false := rfl
    have hdrop : (pre ++ m :: post).drop (pre.length + 1) = post := by
      have e : pre ++ m :: post = (pre ++ [m]) ++ post := by simp
      rw [e]
      exact List.drop_left' (by simp)
    simp only [processSketch, hdrop]
    rw [frameLoop_to_eof post _ _ _ hf hpost, obeyAll_display_append _ _ post]
    simp [newState]

theorem frame_resumption_witness :
    processSketch ([195, 131, 64] ++ 136 :: [70, 65]) [] (some newState) 0 =
      ([] ++ (obeyAll [] newState [195, 131, 64]).1 ++ [Effect.show],
        some { newState with start := [195, 131, 64].length + 1 }, true) ∧
    processSketch ([195, 131, 64] ++ 136 :: [70, 65])
        ([] ++ (obeyAll [] newState [195, 131, 64]).1 ++ [Effect.show])
        (some { newState with start := [195, 131, 64].length + 1 }) 0 =
      ([] ++ (obeyAll [] newState [195, 131, 64]).1 ++ [Effect.show]
          ++ (obeyAll [] { newState with start := [195, 131, 64].length + 1 } [70, 65]).1
          ++ [Effect.show],
        some newState, true) :=
  frame_resumption [195, 131, 64] [70, 65] 136 [] 0 0 (by decide) (by decide) (by decide)

end Sketch

namespace Converter

/-! ## Theorems about the encoder -/

/-- C7: replaying `getPositionCommands i j` through `obey` does not always end at
the pixel.  For row 0, column 1 the replay from the initial pen state ends with
`tx = x = 1` but `ty = y = 1`, not the row 0: the low chunk sent before TARGETY is
taken from `j`.  For row 0, column 64 it ends with `tx = x = 0`, not the column
64: a single DATA byte carries only the low six bits of a column below 128. -/
theorem position_commands_replay_off_pixel :
    getPositionCommands 0 1 = [193, 132, 193, 133, 64] ∧
    (Sketch.obeyAll [] Sketch.newState (getPositionCommands 0 1)).2 =
      { Sketch.newState with x := 1, y := 1, tx := 1, ty := 1 } ∧
    (Sketch.obeyAll [] Sketch.newState (getPositionCommands 0 1)).2.ty ≠ 0 ∧
    getPositionCommands 0 64 = [192, 132, 192, 133, 64] ∧
    (Sketch.obeyAll [] Sketch.newState (getPositionCommands 0 64)).2 =
      { Sketch.newState with x := 0, y := 0, tx := 0, ty := 0 } ∧
    (Sketch.obeyAll [] Sketch.newState (getPositionCommands 0 64)).2.tx ≠ 64 := by
  decide

/-- C8: the first four bytes of `getColourCommands v` do not always carry the grey
colour `v * 65536 + v * 256 + v`.  For `v = 1` they are DATA 0, DATA 0, DATA 4,
DATA 1, which the decoder accumulates to 257 and not to 65793: the second chunk
takes bits 5 and 4 of `v` where the colour has bits 1 and 0. -/
theorem colour_chunks_lose_low_bits :
    (getColourCommands 1).take 4 = [192, 192, 196, 193] ∧
    (Sketch.obeyAll [] Sketch.newState ((getColourCommands 1).take 4)).2.data = 257 ∧
    (Sketch.obeyAll [] Sketch.newState ((getColourCommands 1).take 4)).2.data
      ≠ 1 * 65536 + 1 * 256 + 1 := by
  decide

/-- C9: the block returned by `getColourAndPositionCommands v i j` is not always
the colour commands followed by the position commands.  For `v = 0`, `i = 0`,
`j = 0` the position commands are copied to offset 5 instead of 7: they overwrite
the last two colour commands and the last two of the twelve cells are never
written. -/
theorem colour_and_position_overlap :
    getColourAndPositionCommands 0 0 0 =
      [some 192, some 192, some 192, some 192, some 255,
        some 192, some 132, some 192, some 133, some 64, none, none] ∧
    (getColourCommands 0 ++ getPositionCommands 0 0).map some =
      [some 192, some 192, some 192, some 192, some 255, some 195, some 131,
        some 192, some 132, some 192, some 133, some 64] ∧
    getColourAndPositionCommands 0 0 0
      ≠ (getColourCommands 0 ++ getPositionCommands 0 0).map some := by
  decide

/-- C10: for a pixel whose flags are `equalsPrev = false` and `equalsNext = true`,
`pgmToSk` does not always write the seven colour commands.  In a grid of constant
value 10 the pixel at row 0, column 0 has these flags and only the first five
bytes of `getColourCommands 10` are written: the DATA 3 byte and the COLOUR tool
command are left out. -/
theorem colour_only_pixel_truncated :
    equalsPrevFlag (fun _ _ => 10) 0 0 = false ∧
    equalsNextFlag (fun _ _ => 10) 0 0 = true ∧
    getColourCommands 10 = [194, 192, 232, 202, 255, 195, 131] ∧
    pgmToSkPixel (fun _ _ => 10) 0 0 = [some 194, some 192, some 232, some 202, some 255] ∧
    pgmToSkPixel (fun _ _ => 10) 0 0 ≠ (getColourCommands 10).map some := by
  decide

end Converter

namespace Sketch

/-! ## Tool selection, unknown selectors and whole frames -/

theorem toolSwitch_other (d : display) (s : state) (o : Int)
    (h : o ≠ NONE ∧ o ≠ LINE ∧ o ≠ BLOCK ∧ o ≠ COLOUR ∧ o ≠ TARGETX ∧ o ≠ TARGETY ∧
      o ≠ SHOW ∧ o ≠ PAUSE ∧ o ≠ NEXTFRAME) :
    toolSwitch d s o = (d, s) := by
  unfold toolSwitch
  rw [if_neg h.1, if_neg h.2.1, if_neg h.2.2.1, if_neg h.2.2.2.1, if_neg h.2.2.2.2.1,
    if_neg h.2.2.2.2.2.1, if_neg h.2.2.2.2.2.2.1, if_neg h.2.2.2.2.2.2.2.1,
    if_neg h.2.2.2.2.2.2.2.2]

theorem frameLoop_ended (bs : List Nat) (pos : Nat) (d : display) (s : state)
    (hs : s.fin = true) : frameLoop bs pos d s = (d, s) := by
  cases bs <;> simp [frameLoop, hs]

theorem obey_ends_frame_data (d : display) (s : state) (b : Nat) (hs : s.fin = false)
    (h : (obey d s b).2.fin = true) : (obey d s b).2.data = 0 := by
  by_cases hm : getOpcode b = TOOL ∧ getOperand b = NEXTFRAME
  · rw [obey_marker d s b hm]
  · rw [obey_fin d s b hm, hs] at h
    exact absurd h (by decide)

theorem frameLoop_data (bs : List Nat) (pos : Nat) (d : display) (s : state)
    (hs : s.fin = false) :
    (frameLoop bs pos d s).2.data = 0 ∧ (frameLoop bs pos d s).2.fin = true := by
  induction bs generalizing pos d s with
  | nil =>
    rw [frameLoop]
    simp [hs]
  | cons b rest ih =>
    rw [frameLoop]
    simp only [hs, Bool.false_eq_true, if_false]
    cases hf : (obey d s b).2.fin with
    | false =>
      simp only [Bool.false_eq_true, if_false]
      exact ih (pos + 1) _ _ hf
    | true =>
      simp only [if_true]
      rw [frameLoop_ended rest _ _ _ (by simp)]
      exact ⟨obey_ends_frame_data d s b hs hf, rfl⟩

/-- C15: obeying a TOOL byte whose selector is NONE, LINE or BLOCK does not leave
the accumulated value alone.  From a pen state with `data = 5`, the byte 130
(TOOL, selector BLOCK) sets the tool to BLOCK and also resets `data` to 0. -/
theorem tool_selection_resets_data_example :
    getOpcode 130 = TOOL ∧ getOperand 130 = BLOCK ∧
    (obey [] { newState with data := 5 } 130).2.data = 0 ∧
    obey [] { newState with data := 5 } 130
      ≠ ([], { { newState with data := 5 } with tool := BLOCK }) := by
  decide

/-- C15, amended: for every pen state, obeying a TOOL byte whose selector is NONE,
LINE or BLOCK sets `tool` to that selector, resets `data` to 0 and leaves every
other field of the pen state unchanged; no call is made on the display. -/
theorem obey_tool_selection (d : display) (s : state) (bn bl bb : Nat)
    (hn : getOpcode bn = TOOL ∧ getOperand bn = NONE)
    (hl : getOpcode bl = TOOL ∧ getOperand bl = LINE)
    (hb : getOpcode bb = TOOL ∧ getOperand bb = BLOCK) :
    obey d s bn = (d, { s with tool := NONE, data := 0 }) ∧
    obey d s bl = (d, { s with tool := LINE, data := 0 }) ∧
    obey d s bb = (d, { s with tool := BLOCK, data := 0 }) := by
  have harm : obeyArm TOOL = Arm.tool := by decide
  unfold obey
  simp only [hn.1, hl.1, hb.1, hn.2, hl.2, hb.2, harm, doTOOL, toolSwitch]
  refine ⟨?_, ?_, ?_⟩
  · simp
  · simp [NONE, LINE]
  · simp [NONE, LINE, BLOCK]

theorem obey_tool_selection_witness :
    obey [] { newState with data := 5 } 128
      = ([], { { newState with data := 5 } with tool := NONE, data := 0 }) ∧
    obey [] { newState with data := 5 } 129
      = ([], { { newState with data := 5 } with tool := LINE, data := 0 }) ∧
    obey [] { newState with data := 5 } 130
      = ([], { { newState with data := 5 } with tool := BLOCK, data := 0 }) :=
  obey_tool_selection [] { newState with data := 5 } 128 129 130
    (by decide) (by decide) (by decide)

/-- C16: for every byte stream, every resume offset and every pen state whose
frame-ended flag is false on entry, a call of `processSketch` leaves
`x = y = tx = ty = 0`, the tool LINE, the frame-ended flag false and `data = 0`:
the state is the initial one in every field except possibly `start`. -/
theorem processSketch_resets_pen (file : List Nat) (d : display) (s : state) (key : Nat)
    (hs : s.fin = false) :
    ∃ d1 off, processSketch file d (some s) key =
      (d1, some { newState with start := off }, true) := by
  have h := frameLoop_data (file.drop s.start) s.start d s hs
  refine ⟨(frameLoop (file.drop s.start) s.start d s).1 ++ [Effect.show],
    (frameLoop (file.drop s.start) s.start d s).2.start, ?_⟩
  simp only [processSketch]
  simp [newState, h.1]

theorem processSketch_resets_pen_witness :
    ∃ d1 off,
      processSketch [195, 131, 64, 136, 70, 65] []
          (some { x := 3, y := 4, tx := 5, ty := 6, tool := BLOCK, start := 2, data := 9,
                  fin := false }) 0 =
        (d1, some { newState with start := off }, true) :=
  processSketch_resets_pen [195, 131, 64, 136, 70, 65] []
    { x := 3, y := 4, tx := 5, ty := 6, tool := BLOCK, start := 2, data := 9, fin := false } 0 rfl

/-- C18: obeying a TOOL byte whose selector is none of the nine defined tools is
not a no-op.  From a pen state with `data = 5`, the byte 137 (TOOL, selector 9)
and the byte 168 (TOOL, selector 40, which `getOperand` returns as -24) both reset
`data` to 0. -/
theorem unknown_selector_resets_data_example :
    getOpcode 137 = TOOL ∧ getOperand 137 = 9 ∧
    obey [] { newState with data := 5 } 137 ≠ ([], { newState with data := 5 }) ∧
    (obey [] { newState with data := 5 } 137).2.data = 0 ∧
    getOpcode 168 = TOOL ∧ getOperand 168 = -24 ∧
    obey [] { newState with data := 5 } 168 ≠ ([], { newState with data := 5 }) ∧
    (obey [] { newState with data := 5 } 168).2.data = 0 := by
  decide

/-- C18, amended: for every pen state and every TOOL byte whose selector is none
of the nine defined tools, the selectors 32..63 that `getOperand` returns as
negative numbers included, `obey` resets `data` to 0, leaves every other field of
the pen state unchanged and makes no call on the display. -/
theorem obey_unknown_selector (d : display) (s : state) (b : Nat)
    (hb : getOpcode b = TOOL)
    (h : getOperand b ≠ NONE ∧ getOperand b ≠ LINE ∧ getOperand b ≠ BLOCK ∧
      getOperand b ≠ COLOUR ∧ getOperand b ≠ TARGETX ∧ getOperand b ≠ TARGETY ∧
      getOperand b ≠ SHOW ∧ getOperand b ≠ PAUSE ∧ getOperand b ≠ NEXTFRAME) :
    obey d s b = (d, { s with data := 0 }) := by
  have harm : obeyArm TOOL = Arm.tool := by decide
  unfold obey
  simp only [hb, harm, doTOOL, toolSwitch_other d s _ h]

theorem obey_unknown_selector_witness :
    obey [Effect.show] { newState with data := 5, tx := 7 } 168
      = ([Effect.show], { { newState with data := 5, tx := 7 } with data := 0 }) :=
  obey_unknown_selector [Effect.show] { newState with data := 5, tx := 7 } 168
    (by decide) (by decide)

/-- C19: for every byte stream without a NEXT_FRAME command, a call of
`processSketch` from the initial pen state makes exactly the calls on the display
that obeying the bytes of the stream in order from the initial pen state makes,
then one `show`, and leaves the pen state equal to the initial one, with
`start = 0`.  The end-of-file value, obeyed as the byte 255, makes no call on the
display and changes only `data`, which the call clears; so a second call makes the
same calls again. -/
theorem processSketch_whole_stream (bs : List Nat) (d : display) (k1 k2 : Nat)
    (h : ∀ b ∈ bs, ¬ (getOpcode b = TOOL ∧ getOperand b = NEXTFRAME)) :
    processSketch bs d (some newState) k1 =
      (d ++ (obeyAll [] newState bs).1 ++ [Effect.show], some newState, true) ∧
    (∀ s0 : state, obey d s0 255 = (d, { s0 with data := (s0.data * 64 % UINT + 63) % UINT })) ∧
    processSketch bs (d ++ (obeyAll [] newState bs).1 ++ [Effect.show]) (some newState) k2 =
      (d ++ (obeyAll [] newState bs).1 ++ [Effect.show]
          ++ (obeyAll [] newState bs).1 ++ [Effect.show],
        some newState, true) := by
  have hf : newState.fin = false := rfl
  have h0 : newState.start = 0 := rfl
  have key : ∀ d0 : display, ∀ k : Nat, processSketch bs d0 (some newState) k =
      (d0 ++ (obeyAll [] newState bs).1 ++ [Effect.show], some newState, true) := by
    intro d0 k
    simp only [processSketch, h0, List.drop_zero]
    rw [frameLoop_to_eof bs 0 d0 newState hf h, obeyAll_display_append d0 newState bs]
    simp [newState]
  exact ⟨key d k1, fun s0 => obey_eof d s0, key _ k2⟩

theorem processSketch_whole_stream_witness :
    processSketch [195, 131, 64, 70, 65] [] (some newState) 0 =
      ([] ++ (obeyAll [] newState [195, 131, 64, 70, 65]).1 ++ [Effect.show],
        some newState, true) ∧
    (∀ s0 : state, obey [] s0 255 = ([], { s0 with data := (s0.data * 64 % UINT + 63) % UINT })) ∧
    processSketch [195, 131, 64, 70, 65]
        ([] ++ (obeyAll [] newState [195, 131, 64, 70, 65]).1 ++ [Effect.show])
        (some newState) 0 =
      ([] ++ (obeyAll [] newState [195, 131, 64, 70, 65]).1 ++ [Effect.show]
          ++ (obeyAll [] newState [195, 131, 64, 70, 65]).1 ++ [Effect.show],
        some newState, true) :=
  processSketch_whole_stream [195, 131, 64, 70, 65] [] 0 0 (by decide)

end Sketch

namespace Converter

/-! ## Layout of the emitted commands -/

set_option maxRecDepth 100000 in
theorem coordinate_bits :
    ∀ j, j < 256 →
      (j &&& 0xc0) >>> 6 = j / 64 ∧ j &&& 0x3f = j % 64 ∧
      ((j / 64) <<< 6) ||| (j % 64) = j := by
  decide

theorem data_shifted : DATA <<< 6 = 192 := by decide

theorem coordinate_high_byte (j : Nat) (hj : j < 256) :
    ((DATA <<< 6) + ((j &&& 0xc0) >>> 6)) % 256 = 192 + j / 64 := by
  rw [(coordinate_bits j hj).1, data_shifted]
  omega

theorem coordinate_low_byte (j : Nat) (hj : j < 256) :
    ((DATA <<< 6) + (j &&& 0x3f)) % 256 = 192 + j % 64 := by
  rw [(coordinate_bits j hj).2.1, data_shifted]
  omega

theorem data_byte_opcode (c : Nat) : Sketch.getOpcode (192 + c) = Sketch.DATA := by
  unfold Sketch.getOpcode
  simp

theorem getPositionCommands_bytes (i j : Nat) (hi : i < 256) (hj : j < 256) :
    getPositionCommands i j =
      (if j > 127 then [192 + j / 64] else []) ++ [192 + j % 64] ++ [132] ++
      (if i > 127 then [192 + i / 64] else []) ++ [192 + j % 64] ++ [133] ++ [64] := by
  unfold getPositionCommands
  rw [coordinate_high_byte j hj, coordinate_low_byte j hj, coordinate_high_byte i hi]
  rfl

theorem getPositionCommands_length (i j : Nat) :
    (getPositionCommands i j).length = positionCount i j := by
  unfold getPositionCommands positionCount
  split_ifs <;> simp

/-- C11: in `pgmToSk`, for a grid of width `W` at most 200 and an interior pixel
at column `j` with `0 < j < W - 1` whose left neighbour differs and whose right
neighbour is equal, both flags are true and no byte is written for the pixel. -/
theorem interior_pixel_suppressed (data : Nat → Nat → Nat) (W i j : Nat)
    (hW : W ≤ 200) (hj0 : 0 < j) (hj1 : j < W - 1)
    (hleft : data i (j - 1) ≠ data i j) (hright : data i j = data i (j + 1)) :
    equalsPrevFlag data i j = true ∧ equalsNextFlag data i j = true ∧
    pgmToSkPixel data i j = [] := by
  have hp : equalsPrevFlag data i j = true := by
    unfold equalsPrevFlag
    simp [hj0, hleft]
  have hn : equalsNextFlag data i j = true := by
    unfold equalsNextFlag
    have h199 : j < 199 := by omega
    simp [h199, hright]
  refine ⟨hp, hn, ?_⟩
  unfold pgmToSkPixel pixelCommands
  simp [hp, hn]

theorem interior_pixel_suppressed_witness :
    equalsPrevFlag (fun _ c => if c = 0 then 1 else 2) 0 1 = true ∧
    equalsNextFlag (fun _ c => if c = 0 then 1 else 2) 0 1 = true ∧
    pgmToSkPixel (fun _ c => if c = 0 then 1 else 2) 0 1 = [] :=
  interior_pixel_suppressed (fun _ c => if c = 0 then 1 else 2) 3 0 1
    (by decide) (by decide) (by decide) (by decide) (by decide)

/-- C12: `generateCommands v i j equalsPrev equalsNext` returns the block of
`getColourAndPositionCommands v i j` when the two flags are both false or both
true, the seven bytes of `getColourCommands v` when `equalsPrev` is false and
`equalsNext` is true, and the bytes of `getPositionCommands i j` when `equalsPrev`
is true and `equalsNext` is false. -/
theorem generateCommands_cases (v i j : Nat) :
    generateCommands v i j false false = getColourAndPositionCommands v i j ∧
    generateCommands v i j true true = getColourAndPositionCommands v i j ∧
    generateCommands v i j false true = (getColourCommands v).map some ∧
    (generateCommands v i j false true).length = 7 ∧
    generateCommands v i j true false = (getPositionCommands i j).map some := by
  refine ⟨?_, ?_, ?_, ?_, ?_⟩ <;> simp [generateCommands, getColourCommands]

/-- C13: for every column `j` from 128 to 255 and every row `i`,
`getPositionCommands i j` begins with exactly two DATA bytes, carrying the chunks
`c0` and `c1` below 64, followed by the TOOL byte with selector TARGETX, and the
chunks satisfy `(c0 <<< 6) ||| c1 = j`. -/
theorem wide_column_two_chunks (i j : Nat) (hi : i < 256) (hlo : 128 ≤ j) (hhi : j ≤ 255) :
    ∃ c0 c1 rest,
      getPositionCommands i j = (192 + c0) :: (192 + c1) :: 132 :: rest ∧
      c0 < 64 ∧ c1 < 64 ∧ (c0 <<< 6) ||| c1 = j ∧
      Sketch.getOpcode (192 + c0) = Sketch.DATA ∧
      Sketch.getOpcode (192 + c1) = Sketch.DATA ∧
      Sketch.getOpcode 132 = Sketch.TOOL ∧ Sketch.getOperand 132 = Sketch.TARGETX := by
  have hj : j < 256 := by omega
  have hgt : j > 127 := by omega
  refine ⟨j / 64, j % 64,
    (if i > 127 then [192 + i / 64] else []) ++ [192 + j % 64] ++ [133] ++ [64], ?_, ?_, ?_,
    (coordinate_bits j hj).2.2, data_byte_opcode _, data_byte_opcode _, by decide, by decide⟩
  · rw [getPositionCommands_bytes i j hi hj, if_pos hgt]
    simp
  · omega
  · omega

theorem wide_column_two_chunks_witness :
    ∃ c0 c1 rest,
      getPositionCommands 7 200 = (192 + c0) :: (192 + c1) :: 132 :: rest ∧
      c0 < 64 ∧ c1 < 64 ∧ (c0 <<< 6) ||| c1 = 200 ∧
      Sketch.getOpcode (192 + c0) = Sketch.DATA ∧
      Sketch.getOpcode (192 + c1) = Sketch.DATA ∧
      Sketch.getOpcode 132 = Sketch.TOOL ∧ Sketch.getOperand 132 = Sketch.TARGETX :=
  wide_column_two_chunks 7 200 (by decide) (by decide) (by decide)

set_option maxRecDepth 100000 in
/-- C14: for every grey value `v` from 0 to 255, `getColourCommands v` is exactly
seven bytes; the sums that build bytes 0 to 3 stay below 256, so nothing overflows
into the opcode bits and bytes 0 to 5 all decode to the opcode DATA; bytes 4 and 5
are 255 and 195 (0xFF and 0xC3), the fixed chunks 63 and 3; byte 6 is 131 (0x83),
the TOOL command with selector COLOUR. -/
theorem colour_commands_layout :
    ∀ v, v < 256 →
      (getColourCommands v).length = 7 ∧
      (DATA <<< 6) + (v >>> 2) < 256 ∧
      (DATA <<< 6) + (v &&& 0x30) + (v >>> 4) < 256 ∧
      (DATA <<< 6) + ((v &&& 0x0f) <<< 2) + (v >>> 6) < 256 ∧
      (DATA <<< 6) + (v &&& 0x3f) < 256 ∧
      (∀ b ∈ (getColourCommands v).take 6, Sketch.getOpcode b = Sketch.DATA) ∧
      (getColourCommands v).drop 4 = [255, 195, 131] ∧
      255 = 192 + 63 ∧ 195 = 192 + 3 ∧
      Sketch.getOpcode 131 = Sketch.TOOL ∧ Sketch.getOperand 131 = Sketch.COLOUR := by
  decide

theorem colour_commands_layout_witness :
    (getColourCommands 100).length = 7 ∧
    (DATA <<< 6) + (100 >>> 2) < 256 ∧
    (DATA <<< 6) + (100 &&& 0x30) + (100 >>> 4) < 256 ∧
    (DATA <<< 6) + ((100 &&& 0x0f) <<< 2) + (100 >>> 6) < 256 ∧
    (DATA <<< 6) + (100 &&& 0x3f) < 256 ∧
    (∀ b ∈ (getColourCommands 100).take 6, Sketch.getOpcode b = Sketch.DATA) ∧
    (getColourCommands 100).drop 4 = [255, 195, 131] ∧
    255 = 192 + 63 ∧ 195 = 192 + 3 ∧
    Sketch.getOpcode 131 = Sketch.TOOL ∧ Sketch.getOperand 131 = Sketch.COLOUR :=
  colour_commands_layout 100 (by decide)

/-- C17: in `pgmToSk`, for every pixel at row `i` and column `j`, both below 256,
whose flags are `equalsPrev = true` and `equalsNext = false`, the bytes written
for the pixel are exactly those of `getPositionCommands i j`, of which there are
`5 + [i > 127] + [j > 127]`; no colour command is among them. -/
theorem position_only_pixel (data : Nat → Nat → Nat) (i j : Nat)
    (hi : i < 256) (hj : j < 256)
    (hp : equalsPrevFlag data i j = true) (hn : equalsNextFlag data i j = false) :
    pgmToSkPixel data i j = (getPositionCommands i j).map some ∧
    (pgmToSkPixel data i j).length =
      5 + (if i > 127 then 1 else 0) + (if j > 127 then 1 else 0) := by
  have hpix : pgmToSkPixel data i j = (getPositionCommands i j).map some := by
    unfold pgmToSkPixel pixelCommands
    simp only [hp, hn, generateCommands, Nat.mod_eq_of_lt hi, Nat.mod_eq_of_lt hj]
    simp only [Bool.and_false, Bool.not_false, Bool.not_true, Bool.and_true, Bool.false_eq_true,
      if_true, if_false, Bool.false_and]
    apply List.take_of_length_le
    simp [getPositionCommands_length]
  refine ⟨hpix, ?_⟩
  rw [hpix, List.length_map, getPositionCommands_length]
  rfl

theorem position_only_pixel_witness :
    pgmToSkPixel (fun _ c => c) 200 1 = (getPositionCommands 200 1).map some ∧
    (pgmToSkPixel (fun _ c => c) 200 1).length =
      5 + (if 200 > 127 then 1 else 0) + (if 1 > 127 then 1 else 0) :=
  position_only_pixel (fun _ c => c) 200 1 (by decide) (by decide) (by decide) (by decide)

/-- C20: for all `i` and `j` from 0 to 255, `getPositionCommands i j` has exactly
`5 + [i > 127] + [j > 127]` bytes, laid out as one DATA byte (two when `j > 127`),
the TOOL byte 132 (0x84) with selector TARGETX, one DATA byte (two when `i > 127`),
the TOOL byte 133 (0x85) with selector TARGETY, and the byte 64 (0x40), a DY move
with operand 0. -/
theorem position_commands_layout (i j : Nat) (hi : i < 256) (hj : j < 256) :
    (getPositionCommands i j).length =
      5 + (if i > 127 then 1 else 0) + (if j > 127 then 1 else 0) ∧
    ∃ xs ys,
      getPositionCommands i j = xs ++ [132] ++ ys ++ [133] ++ [64] ∧
      xs.length = 1 + (if j > 127 then 1 else 0) ∧
      ys.length = 1 + (if i > 127 then 1 else 0) ∧
      (∀ b ∈ xs, Sketch.getOpcode b = Sketch.DATA) ∧
      (∀ b ∈ ys, Sketch.getOpcode b = Sketch.DATA) ∧
      Sketch.getOpcode 132 = Sketch.TOOL ∧ Sketch.getOperand 132 = Sketch.TARGETX ∧
      Sketch.getOpcode 133 = Sketch.TOOL ∧ Sketch.getOperand 133 = Sketch.TARGETY ∧
      Sketch.getOpcode 64 = Sketch.DY ∧ Sketch.getOperand 64 = 0 := by
  refine ⟨by rw [getPositionCommands_length]; rfl,
    (if j > 127 then [192 + j / 64] else []) ++ [192 + j % 64],
    (if i > 127 then [192 + i / 64] else []) ++ [192 + j % 64], ?_, ?_, ?_, ?_, ?_,
    by decide, by decide, by decide, by decide, by decide, by decide⟩
  · rw [getPositionCommands_bytes i j hi hj]
    simp
  · split_ifs <;> simp
  · split_ifs <;> simp
  · split_ifs <;> simp [data_byte_opcode]
  · split_ifs <;> simp [data_byte_opcode]

theorem position_commands_layout_witness :
    (getPositionCommands 199 5).length =
      5 + (if 199 > 127 then 1 else 0) + (if 5 > 127 then 1 else 0) ∧
    ∃ xs ys,
      getPositionCommands 199 5 = xs ++ [132] ++ ys ++ [133] ++ [64] ∧
      xs.length = 1 + (if 5 > 127 then 1 else 0) ∧
      ys.length = 1 + (if 199 > 127 then 1 else 0) ∧
      (∀ b ∈ xs, Sketch.getOpcode b = Sketch.DATA) ∧
      (∀ b ∈ ys, Sketch.getOpcode b = Sketch.DATA) ∧
      Sketch.getOpcode 132 = Sketch.TOOL ∧ Sketch.getOperand 132 = Sketch.TARGETX ∧
      Sketch.getOpcode 133 = Sketch.TOOL ∧ Sketch.getOperand 133 = Sketch.TARGETY ∧
      Sketch.getOpcode 64 = Sketch.DY ∧ Sketch.getOperand 64 = 0 :=
  position_commands_layout 199 5 (by decide) (by decide)

end Converter
